import Mathlib

/-!
# Verification of `wiretime`

A shallow embedding of the measurement loop of `wiretime.c` (the
`wiretime` repository): the timestamp-notification collector
(`recv_timestamp`), the cycle scheduler's target computation
(`synchronize` / `normalize`), the statistics engine
(`update_statistics` / `print_statistics`), and the main cycle loop,
together with theorems settling the specification's claims about them.

C `long` / `long long` values are modelled as `Int` (the quantities
involved — timestamps, latencies in µs, thresholds — are far from the
64-bit range in every reachable scenario, and no claim concerns
overflow); `size_t` counters as `Nat`; the 16-bit `uint16_t` sequence
counter as a `Nat` reduced mod 65536 at each increment, which is exactly
the C wrap-around behaviour.
-/

namespace Wiretime

/-- The C `struct timespec`: seconds and nanoseconds, both C `long`. -/
structure Timespec where
  tv_sec : Int
  tv_nsec : Int
deriving DecidableEq

/-- The all-zero timespec, the state of a `tstamps` slot after `memset`. -/
def Timespec.zero : Timespec := ⟨0, 0⟩

/-- Total nanoseconds represented by a timespec. -/
def Timespec.totalNs (t : Timespec) : Int :=
  t.tv_sec * 1000000000 + t.tv_nsec

/-- The global `struct timespec tstamps[3]` of `wiretime.c`:
slot 0 = packet entered the packet scheduler (software),
slot 1 = packet passed to the NIC driver (software),
slot 2 = packet transmitted on the wire (hardware). -/
structure Tstamps where
  t0 : Timespec
  t1 : Timespec
  t2 : Timespec
deriving DecidableEq

/-- All three slots zeroed, as after `memset(tstamps, 0, sizeof(tstamps))`. -/
def Tstamps.zero : Tstamps := ⟨Timespec.zero, Timespec.zero, Timespec.zero⟩

/-- Constant `SCM_TSTAMP_SND` from `linux/net_tstamp.h`. -/
def SCM_TSTAMP_SND : Nat := 0

/-- Constant `SCM_TSTAMP_SCHED` from `linux/net_tstamp.h`. -/
def SCM_TSTAMP_SCHED : Nat := 1

/-- One message read from the socket's error queue, after control-message
parsing in `recv_timestamp` (wiretime.c:154-187): the optional
`scm_timestamping` triple `ts[0..2]` and the optional
`sock_extended_err` carrying `ee_info`. -/
structure Msg where
  ts : Option (Timespec × Timespec × Timespec)
  ee_info : Option Nat
deriving DecidableEq

/-- The dispatch at the end of `recv_timestamp` (wiretime.c:189-213):
if either ancillary piece is missing, the message is dropped; otherwise
an `if` / `else if` chain keyed on `ee_info` and the `tv_sec` fields of
the triple updates at most one slot of `tstamps`. -/
def recv_apply (rec : Tstamps) (m : Msg) : Tstamps :=
  match m.ts, m.ee_info with
  | some ts, some ee =>
    if ee = SCM_TSTAMP_SCHED then
      { rec with t0 := ts.1 }
    else if ee = SCM_TSTAMP_SND ∧ ts.1.tv_sec ≠ 0 then
      { rec with t1 := ts.1 }
    else if ee = SCM_TSTAMP_SND ∧ ts.2.2.tv_sec ≠ 0 then
      { rec with t2 := ts.2.2 }
    else
      rec
  | _, _ => rec

/-- One call to `recv_timestamp` (wiretime.c:131-213), with the socket
error queue modelled as a list of parsed messages: a single
`recvmsg(..., MSG_ERRQUEUE)` consumes at most one message (an empty
queue returns `EAGAIN` and the call is a no-op on `tstamps`). -/
def recv_timestamp : List Msg × Tstamps → List Msg × Tstamps
  | ([], rec) => ([], rec)
  | (m :: rest, rec) => (rest, recv_apply rec m)

/-- Iterated collector calls: `n` successive invocations of `recv_timestamp` (as the `pselect` loop
inside `synchronize` performs, one per readiness wake-up). -/
def recv_iter : Nat → List Msg × Tstamps → List Msg × Tstamps
  | 0, qr => qr
  | n + 1, qr => recv_iter n (recv_timestamp qr)

/-- Function `normalize` (wiretime.c:217-224): fold nanosecond overflow into the
seconds field, one billion at a time. -/
def normalize (ts : Timespec) : Timespec :=
  if h : ts.tv_nsec ≥ 1000000000 then
    normalize ⟨ts.tv_sec + 1, ts.tv_nsec - 1000000000⟩
  else
    ts
termination_by ts.tv_nsec.toNat
decreasing_by
  omega

/-- The wake-target computation of `synchronize` (wiretime.c:242-250):
`next.tv_sec = now.tv_sec`,
`next.tv_nsec = ((now.tv_nsec / period) + 1) * period + addend`,
then `normalize`. C `long` division truncates toward zero (`Int.tdiv`). -/
def compute_next (now : Timespec) (period addend : Int) : Timespec :=
  normalize ⟨now.tv_sec, (now.tv_nsec.tdiv period + 1) * period + addend⟩

/-- Constant `NSAMPLES` (wiretime.c:54). -/
def NSAMPLES : Nat := 1024

/-- Constant `NBINS` (wiretime.c:57). -/
def NBINS : Nat := 12

/-- Constant `BIN0` (wiretime.c:58): exclusive upper bound of bucket 0, in µs. -/
def BIN0 : Int := 32

/-- The bucket-selection scan of `update_statistics` (wiretime.c:121-128):
for `i = 0 .. NBINS-2` in order, the first `i` with
`latency < BIN0 * 2^i` wins; if none does, the catch-all bucket
`NBINS-1` is used. The first argument counts the loop iterations still
to run (`NBINS - 1 - i`), making the recursion structural. -/
def bucketScan (latency : Int) : Nat → Nat → Nat
  | 0, _ => NBINS - 1
  | remaining + 1, i =>
    if latency < BIN0 * 2 ^ i then i else bucketScan latency remaining (i + 1)

/-- The histogram bucket chosen for a latency sample: the scan starts at
`i = 0` with `NBINS - 1` iterations to run. -/
def bucket (latency : Int) : Nat := bucketScan latency (NBINS - 1) 0

/-- The latency computation of the main loop (wiretime.c:513-515):
nanosecond difference between the hardware wire timestamp (`tstamps[2]`)
and the scheduler-entry timestamp (`tstamps[0]`), divided by 1000 with
C truncation toward zero. -/
def latency (rec : Tstamps) : Int :=
  ((rec.t2.tv_sec - rec.t0.tv_sec) * 1000000000 +
   (rec.t2.tv_nsec - rec.t0.tv_nsec)).tdiv 1000

/-- The completeness test of the main loop (wiretime.c:494-496): all
three `tstamps` slots have a non-zero `tv_sec`. -/
def tsComplete (rec : Tstamps) : Prop :=
  rec.t0.tv_sec ≠ 0 ∧ rec.t1.tv_sec ≠ 0 ∧ rec.t2.tv_sec ≠ 0

instance (rec : Tstamps) : Decidable (tsComplete rec) := by
  unfold tsComplete; infer_instance

/-- Run-level configuration fixed at startup: whether the snapshot sink
(`/sys/kernel/tracing/snapshot`) opened successfully, and the latency
threshold in µs (validated non-negative, wiretime.c:343-347). -/
structure Config where
  snapshotSink : Bool
  threshold : Int

/-- The mutable run state of `wiretime.c`: the globals `num_packets`,
`min_lat`, `max_lat`, `samples`, `bins`, `tstamps` and the local
`seqid` of `main`. `samples` and `bins` are total maps (the C arrays;
every index ever written is below the array length). Two observation
fields record externally visible events: `snapshots` counts writes of
`"1"` to the snapshot sink, and `counted` logs, in order, every latency
value passed to `update_statistics`. -/
structure State where
  num_packets : Nat
  seqid : Nat
  tstamps : Tstamps
  min_lat : Int
  max_lat : Int
  samples : Nat → Int
  bins : Nat → Nat
  snapshots : Nat
  counted : List Int

/-- The initial state: `seqid = 0`, zeroed statics, `min_lat = LONG_MAX`
and `max_lat = LONG_MIN` (wiretime.c:51-52). -/
def initState : State where
  num_packets := 0
  seqid := 0
  tstamps := Tstamps.zero
  min_lat := 9223372036854775807
  max_lat := -9223372036854775808
  samples := fun _ => 0
  bins := fun _ => 0
  snapshots := 0
  counted := []

/-- Function `update_statistics` (wiretime.c:111-129): update the running
extrema, overwrite the sample slot `num_packets & (NSAMPLES - 1)`, and
increment the one histogram bucket chosen by the scan. -/
def update_statistics (s : State) (lat : Int) : State :=
  { s with
    min_lat := if lat < s.min_lat then lat else s.min_lat
    max_lat := if lat > s.max_lat then lat else s.max_lat
    samples := fun j =>
      if j = s.num_packets &&& (NSAMPLES - 1) then lat else s.samples j
    bins := fun j => if j = bucket lat then s.bins j + 1 else s.bins j
    counted := s.counted ++ [lat] }

/-- One iteration of the `while (1)` loop of `main`
(wiretime.c:470-550), with the record present in `tstamps` at
evaluation time passed explicitly (it is produced by the
`recv_timestamp` calls made while waiting in `synchronize`; see
`iter`). Faithful control flow:

* a non-first cycle whose record is incomplete logs the missing stages,
  writes the snapshot sink if configured, and `continue`s — skipping
  the sequence-counter increment, the `memset` of `tstamps`, and the
  `num_packets` increment (wiretime.c:498-510);
* a non-first cycle with a complete record computes the latency, writes
  the snapshot sink iff it is configured and `threshold` is non-zero
  and the latency exceeds it, and feeds the statistics engine only when
  `num_packets > 1` (wiretime.c:513-542);
* every non-skipped iteration then increments `seqid` (wrapping as a
  16-bit counter), zeroes `tstamps`, and increments `num_packets`
  (wiretime.c:545-549). -/
def evalStep (cfg : Config) (s : State) (rec : Tstamps) : State :=
  if s.num_packets ≠ 0 ∧ ¬ tsComplete rec then
    { s with
      tstamps := rec
      snapshots := s.snapshots + (if cfg.snapshotSink then 1 else 0) }
  else
    let s1 :=
      if s.num_packets ≠ 0 then
        let lat := latency rec
        let snap : Bool :=
          cfg.snapshotSink && decide (cfg.threshold ≠ 0)
            && decide (lat > cfg.threshold)
        let s' := { s with snapshots := s.snapshots + (if snap then 1 else 0) }
        if s.num_packets > 1 then update_statistics s' lat else s'
      else s
    { s1 with
      seqid := (s1.seqid + 1) % 65536
      tstamps := Tstamps.zero
      num_packets := s1.num_packets + 1 }

/-- One loop iteration driven by the messages the kernel queues during
this iteration's `synchronize` wait: the `pselect` loop invokes
`recv_timestamp` once per readiness wake-up until the queue is empty,
so the record evaluated afterwards is the fold of `recv_apply` over the
queued messages, starting from the `tstamps` carried over from the
previous iteration. -/
def iter (cfg : Config) (s : State) (msgs : List Msg) : State :=
  evalStep cfg s (msgs.foldl recv_apply s.tstamps)

/-- A whole run at message level: fold `iter` over the per-iteration
message lists. -/
def run (cfg : Config) (s : State) (l : List (List Msg)) : State :=
  l.foldl (iter cfg) s

/-- A whole run at record level: fold `evalStep` over the records seen
at evaluation time. -/
def runE (cfg : Config) (s : State) (l : List Tstamps) : State :=
  l.foldl (evalStep cfg) s

/-- The median computation of `print_statistics` (wiretime.c:77-97):
drop the first packet from the count, and if any packets remain, sort
the first `n = min(num_packets, NSAMPLES)` entries of `samples`
ascending and report the entry at index `n / 2`. `qsort` with `compar`
produces the unique ascending arrangement of those `n` values, which
`List.insertionSort` also produces. -/
def report_median (s : State) : Option Int :=
  if s.num_packets - 1 = 0 then none
  else
    some ((List.insertionSort (· ≤ ·)
        ((List.range (min (s.num_packets - 1) NSAMPLES)).map s.samples)).getD
      (min (s.num_packets - 1) NSAMPLES / 2) 0)

/-- The per-cycle anomaly evaluation (wiretime.c:494-527), as the
specification's `evaluate(timestamps, threshold, snapshotSink?)`
contract: an incomplete record yields no latency and requests a
snapshot whenever the sink is configured; a complete record yields the
latency and requests a snapshot iff the sink is configured, the
threshold is non-zero, and the latency exceeds it. -/
def evaluate (snapshotSink : Bool) (threshold : Int) (rec : Tstamps) :
    Option Int × Bool :=
  if ¬ tsComplete rec then
    (none, snapshotSink)
  else
    (some (latency rec),
     snapshotSink && decide (threshold ≠ 0) && decide (latency rec > threshold))

/-! ## Concrete runs used as evidence -/

/-- A queued message carrying only a scheduler-entry timestamp with
`tv_sec = 5`. -/
def mSched5 : Msg :=
  ⟨some (⟨5, 0⟩, Timespec.zero, Timespec.zero), some SCM_TSTAMP_SCHED⟩

/-- A queued `SCM_TSTAMP_SND` message whose software slot is populated
(`tv_sec = 5`): records the driver-handoff stage. -/
def mSnd5 : Msg :=
  ⟨some (⟨5, 0⟩, Timespec.zero, Timespec.zero), some SCM_TSTAMP_SND⟩

/-- A queued `SCM_TSTAMP_SND` message whose software slot is zero and
whose hardware slot reads 5 s + 100000 ns: records the wire-departure
stage. -/
def mHw5 : Msg :=
  ⟨some (Timespec.zero, Timespec.zero, ⟨5, 100000⟩), some SCM_TSTAMP_SND⟩

/-- The three messages of one fully timestamped cycle; folding them into
a zeroed record yields `recFull5`. -/
def msgsFull5 : List Msg := [mSched5, mSnd5, mHw5]

/-- A complete cycle record: scheduled 5 s, driver handoff 5 s, wire
departure 5 s + 100000 ns; its latency is 100 µs. -/
def recFull5 : Tstamps := ⟨⟨5, 0⟩, ⟨5, 0⟩, ⟨5, 100000⟩⟩

/-! ## Definitions written from the specification's words

Each definition below transcribes a claim of the specification as
stated, to be compared with the corresponding definition translated
from the source. -/

/-- Claim C2's median, from the spec's words: with `k` counted samples,
let `n = min(k, capacity)`, sort a copy of exactly those `k` counted
samples ascending, and take the entry at index `n / 2`. -/
def median_spec_C2 (counted : List Int) : Option Int :=
  if counted.length = 0 then none
  else
    let n := min counted.length NSAMPLES
    some ((List.insertionSort (· ≤ ·) (counted.take n)).getD (n / 2) 0)

/-- Claim C4's wake target, from the spec's words: in total monotonic
nanoseconds, `ceil(now / period) × period + phaseOffset` — the smallest
period boundary at or after `now`, plus the offset. Ceiling division
written for the claim's domain `now ≥ 0`, `period > 0`. -/
def target_spec_C4 (now : Timespec) (period addend : Int) : Int :=
  ((now.totalNs + period - 1).tdiv period) * period + addend

/-- Claim C5's dispatch, from the claim's words, read as a truth table
of independent rules: "entered scheduler" sets slot 0 from `triple[0]`;
"handed to driver" with `triple[0]` non-zero sets slot 1 from
`triple[0]`, and with `triple[2]` non-zero sets slot 2 from
`triple[2]`; any other combination changes nothing; a message lacking
either ancillary piece is discarded. "Non-zero" here is read of the
whole timestamp value. -/
def recv_apply_spec_C5 (rec : Tstamps) (m : Msg) : Tstamps :=
  match m.ts, m.ee_info with
  | some ts, some ee =>
    if ee = SCM_TSTAMP_SCHED then
      { rec with t0 := ts.1 }
    else if ee = SCM_TSTAMP_SND then
      let r1 := if ts.1 ≠ Timespec.zero then { rec with t1 := ts.1 } else rec
      if ts.2.2 ≠ Timespec.zero then { r1 with t2 := ts.2.2 } else r1
    else
      rec
  | _, _ => rec

/-- Invariant of an anomaly-free run after `i` loop iterations:
`num_packets = i`, the record was re-zeroed, `c` logs the counted
latencies in order (`c.length = i - 2`: the first iteration evaluates
nothing and the first completed cycle is excluded), and — because
`update_statistics` stores a counted sample at window index
`num_packets` (its value at evaluation time, which is ≥ 2) — counted
sample `j` sits at window index `j + 2` while indices 0 and 1 are never
written. -/
def windowInv (i : Nat) (c : List Int) (s : State) : Prop :=
  s.num_packets = i ∧ s.tstamps = Tstamps.zero ∧ s.counted = c ∧
  c.length = i - 2 ∧
  ∀ j : Nat, s.samples j =
    if 2 ≤ j ∧ j - 2 < c.length then c.getD (j - 2) 0 else 0

/-! ## Helper lemmas -/

/-- The C index mask `num_packets & (NSAMPLES - 1)` is reduction mod
the window capacity. -/
lemma land_mask_eq_mod (n : Nat) : n &&& 1023 = n % 1024 := by
  apply Nat.eq_of_testBit_eq
  intro i
  have h1023 : (1023 : Nat) = 2 ^ 10 - 1 := by norm_num
  have h1024 : (1024 : Nat) = 2 ^ 10 := by norm_num
  rw [Nat.testBit_land, h1023, h1024, Nat.testBit_two_pow_sub_one,
    Nat.testBit_mod_two_pow, Bool.and_comm]

lemma land_mask_eq_self (n : Nat) (h : n < 1024) : n &&& 1023 = n := by
  rw [land_mask_eq_mod]
  exact Nat.mod_eq_of_lt h

/-- The scan never returns past the catch-all bucket. -/
lemma bucketScan_le (L : Int) :
    ∀ remaining i, remaining + i = 11 → bucketScan L remaining i ≤ 11
  | 0, i => by intro h; simp [bucketScan, NBINS]
  | remaining + 1, i => by
    intro h
    simp only [bucketScan]
    by_cases hc : L < BIN0 * 2 ^ i
    · rw [if_pos hc]; omega
    · rw [if_neg hc]; exact bucketScan_le L remaining (i + 1) (by omega)

/-- A non-catch-all result satisfies its bucket's exclusive upper
bound. -/
lemma bucketScan_lt (L : Int) :
    ∀ remaining i, remaining + i = 11 → bucketScan L remaining i < 11 →
      L < BIN0 * 2 ^ bucketScan L remaining i
  | 0, i => by intro h hlt; simp [bucketScan, NBINS] at hlt
  | remaining + 1, i => by
    intro h hlt
    simp only [bucketScan] at hlt ⊢
    by_cases hc : L < BIN0 * 2 ^ i
    · rw [if_pos hc] at hlt ⊢; exact hc
    · rw [if_neg hc] at hlt ⊢
      exact bucketScan_lt L remaining (i + 1) (by omega) hlt

/-- Minimality: every bucket strictly before the scan's result failed
its bound test. -/
lemma bucketScan_min (L : Int) :
    ∀ remaining i j, remaining + i = 11 → i ≤ j →
      j < bucketScan L remaining i → ¬ L < BIN0 * 2 ^ j
  | 0, i, j => by
    intro h hij hlt
    simp [bucketScan, NBINS] at hlt
    omega
  | remaining + 1, i, j => by
    intro h hij hlt
    simp only [bucketScan] at hlt
    by_cases hc : L < BIN0 * 2 ^ i
    · rw [if_pos hc] at hlt; omega
    · rw [if_neg hc] at hlt
      rcases Nat.eq_or_lt_of_le hij with rfl | hij'
      · exact hc
      · exact bucketScan_min L remaining (i + 1) j (by omega) hij' hlt

/-- Lemma: `normalize` moves nanoseconds into seconds without changing the
instant represented. -/
lemma normalize_totalNs (ts : Timespec) :
    (normalize ts).totalNs = ts.totalNs := by
  unfold normalize
  split
  · rw [normalize_totalNs ⟨ts.tv_sec + 1, ts.tv_nsec - 1000000000⟩]
    unfold Timespec.totalNs
    ring
  · rfl
termination_by ts.tv_nsec.toNat
decreasing_by
  show (ts.tv_nsec - 1000000000).toNat < ts.tv_nsec.toNat
  omega

/-- After `normalize`, a non-negative nanosecond field lies in
`[0, 10^9)`. -/
lemma normalize_nsec_range (ts : Timespec) (h : 0 ≤ ts.tv_nsec) :
    0 ≤ (normalize ts).tv_nsec ∧ (normalize ts).tv_nsec < 1000000000 := by
  unfold normalize
  split
  · exact normalize_nsec_range ⟨ts.tv_sec + 1, ts.tv_nsec - 1000000000⟩
      (by show (0 : Int) ≤ ts.tv_nsec - 1000000000; omega)
  · constructor
    · exact h
    · omega
termination_by ts.tv_nsec.toNat
decreasing_by
  show (ts.tv_nsec - 1000000000).toNat < ts.tv_nsec.toNat
  omega

/-- Anomalous branch of the loop body (wiretime.c:498-510): the
`continue` leaves everything but `tstamps` and the snapshot sink
untouched. -/
lemma evalStep_anomalous (cfg : Config) (s : State) (rec : Tstamps)
    (h1 : s.num_packets ≠ 0) (h2 : ¬ tsComplete rec) :
    evalStep cfg s rec =
      { s with tstamps := rec,
               snapshots := s.snapshots +
                 (if cfg.snapshotSink then 1 else 0) } := by
  unfold evalStep
  rw [if_pos ⟨h1, h2⟩]

/-- First iteration (`num_packets = 0`): no evaluation, only the
end-of-loop advance. -/
lemma evalStep_first (cfg : Config) (s : State) (rec : Tstamps)
    (h : s.num_packets = 0) :
    evalStep cfg s rec =
      { s with seqid := (s.seqid + 1) % 65536,
               tstamps := Tstamps.zero,
               num_packets := s.num_packets + 1 } := by
  unfold evalStep
  rw [if_neg (by simp [h])]
  simp [h]

/-- Complete record evaluated at `num_packets = 1`: the first completed
cycle is logged and may snapshot, but is not fed to the statistics
engine; then the end-of-loop advance runs. -/
lemma evalStep_second (cfg : Config) (s : State) (rec : Tstamps)
    (h1 : s.num_packets = 1) (h2 : tsComplete rec) :
    evalStep cfg s rec =
      { s with snapshots := s.snapshots +
                 (if cfg.snapshotSink && decide (cfg.threshold ≠ 0)
                     && decide (latency rec > cfg.threshold) then 1 else 0),
               seqid := (s.seqid + 1) % 65536,
               tstamps := Tstamps.zero,
               num_packets := s.num_packets + 1 } := by
  unfold evalStep
  rw [if_neg (by simp [h2])]
  simp [h1]

/-- Complete record evaluated at `num_packets > 1`: a counted cycle;
the statistics engine runs, then the end-of-loop advance. -/
lemma evalStep_counted (cfg : Config) (s : State) (rec : Tstamps)
    (h1 : 1 < s.num_packets) (h2 : tsComplete rec) :
    evalStep cfg s rec =
      { s with min_lat := if latency rec < s.min_lat then latency rec
                 else s.min_lat,
               max_lat := if latency rec > s.max_lat then latency rec
                 else s.max_lat,
               samples := fun j =>
                 if j = s.num_packets &&& (NSAMPLES - 1) then latency rec
                 else s.samples j,
               bins := fun j => if j = bucket (latency rec) then s.bins j + 1
                 else s.bins j,
               counted := s.counted ++ [latency rec],
               snapshots := s.snapshots +
                 (if cfg.snapshotSink && decide (cfg.threshold ≠ 0)
                     && decide (latency rec > cfg.threshold) then 1 else 0),
               seqid := (s.seqid + 1) % 65536,
               tstamps := Tstamps.zero,
               num_packets := s.num_packets + 1 } := by
  unfold evalStep
  rw [if_neg (by simp [h2])]
  have h0 : s.num_packets ≠ 0 := by omega
  simp only [h0, h1, ne_eq, ite_true, ite_false, if_true, if_false,
    not_true_eq_false, not_false_eq_true]
  unfold update_statistics
  rfl

/-! ## The claims -/

/-- C8 (confirmed): for a cycle with all three stage timestamps, the
latency is the nanosecond difference `wireDeparture − scheduled`
divided by 1000 truncating toward zero, independent of the
`driverHandoff` slot; scheduled `0 ns`, driverHandoff `50000 ns`,
wireDeparture `120000 ns` yields `120 µs`. -/
theorem latency_formula :
    (∀ rec : Tstamps,
        latency rec = (rec.t2.totalNs - rec.t0.totalNs).tdiv 1000) ∧
    (∀ (rec : Tstamps) (t : Timespec),
        latency { rec with t1 := t } = latency rec) ∧
    latency ⟨⟨0, 0⟩, ⟨0, 50000⟩, ⟨0, 120000⟩⟩ = 120 := by
  refine ⟨fun rec => ?_, fun rec t => rfl, by decide⟩
  unfold latency Timespec.totalNs
  congr 1
  ring

/-- C7 (confirmed): `update_statistics` increments exactly one
histogram bucket — the bucket of smallest index `i ∈ [0, 10]` with
`latency < 32µs · 2^i`, or bucket 11 when no such `i` exists — and the
boundary samples 31, 32, 32767, 32768 µs land in buckets 0, 1, 10, 11
respectively. -/
theorem histogram_bucket_selection :
    (∀ (L : Int) (s : State),
        (∀ j, (update_statistics s L).bins j
            = if j = bucket L then s.bins j + 1 else s.bins j) ∧
        bucket L ≤ 11 ∧
        (bucket L < 11 → L < 32 * 2 ^ bucket L) ∧
        (∀ j, j < bucket L → ¬ L < 32 * 2 ^ j) ∧
        (bucket L = 11 → ∀ j, j ≤ 10 → ¬ L < 32 * 2 ^ j)) ∧
    bucket 31 = 0 ∧ bucket 32 = 1 ∧ bucket 32767 = 10 ∧ bucket 32768 = 11 := by
  refine ⟨fun L s => ⟨fun j => rfl, ?_, ?_, ?_, ?_⟩,
    by decide, by decide, by decide, by decide⟩
  · exact bucketScan_le L 11 0 rfl
  · intro hlt
    have := bucketScan_lt L 11 0 rfl hlt
    simpa [BIN0, bucket] using this
  · intro j hj
    have := bucketScan_min L 11 0 j rfl (Nat.zero_le j) hj
    simpa [BIN0] using this
  · intro h11 j hj
    have h' : bucketScan L 11 0 = 11 := by simpa [bucket, NBINS] using h11
    apply bucketScan_min L 11 0 j rfl (Nat.zero_le j)
    omega

/-- Closed witness for `histogram_bucket_selection`: at latency 100 µs
the chosen bucket is 2, its bound holds, and bucket 1's bound fails. -/
theorem histogram_bucket_selection_witness :
    bucket 100 < 11 ∧ (100 : Int) < 32 * 2 ^ bucket 100 ∧
    (1 : Nat) < bucket 100 ∧ ¬ (100 : Int) < 32 * 2 ^ 1 :=
  ⟨by decide,
   (histogram_bucket_selection.1 100 initState).2.2.1 (by decide),
   by decide,
   (histogram_bucket_selection.1 100 initState).2.2.2.1 1 (by decide)⟩

/-- C6 (confirmed): with a snapshot sink configured, evaluation
requests a snapshot iff a stage timestamp is missing or the threshold
is positive and exceeded; with threshold 0 and a complete record no
snapshot is ever requested; and `evaluate` is exactly the snapshot
behaviour of the main loop's evaluation block. -/
theorem snapshot_trigger_iff :
    (∀ (threshold : Int) (rec : Tstamps), 0 ≤ threshold →
        ((evaluate true threshold rec).2 = true ↔
          ¬ tsComplete rec ∨ (0 < threshold ∧ latency rec > threshold))) ∧
    (∀ rec : Tstamps, tsComplete rec → (evaluate true 0 rec).2 = false) ∧
    (∀ (cfg : Config) (s : State) (rec : Tstamps), s.num_packets ≠ 0 →
        (evalStep cfg s rec).snapshots =
          s.snapshots +
            (if (evaluate cfg.snapshotSink cfg.threshold rec).2
             then 1 else 0)) := by
  refine ⟨fun threshold rec hth => ?_, fun rec hc => ?_, fun cfg s rec hnp => ?_⟩
  · by_cases hc : tsComplete rec
    · simp only [evaluate, hc, not_true_eq_false, if_false, Bool.true_and,
        Bool.and_eq_true, decide_eq_true_eq, false_or]
      omega
    · simp [evaluate, hc]
  · simp [evaluate, hc]
  · by_cases hc : tsComplete rec
    · rcases Nat.lt_or_ge 1 s.num_packets with h1 | h1
      · rw [evalStep_counted cfg s rec h1 hc]
        simp [evaluate, hc]
      · have h1' : s.num_packets = 1 := by omega
        rw [evalStep_second cfg s rec h1' hc]
        simp [evaluate, hc]
    · rw [evalStep_anomalous cfg s rec hnp hc]
      simp [evaluate, hc]

/-- Closed witness for `snapshot_trigger_iff`: threshold 50 µs and the
complete 100 µs cycle `recFull5` do trigger a snapshot. -/
theorem snapshot_trigger_iff_witness :
    (0 : Int) ≤ 50 ∧ (evaluate true 50 recFull5).2 = true :=
  ⟨by norm_num,
   (snapshot_trigger_iff.1 50 recFull5 (by norm_num)).mpr
     (Or.inr ⟨by norm_num, by decide⟩)⟩

/-- C9 (confirmed): a cycle evaluated while `num_packets ≤ 1` — in any
run, exactly the cycles up to and including the first completed one —
never touches the extrema, the sample window, the histogram, or the
counted-sample log; and as long as no completed cycle has been
evaluated, `num_packets` stays at most 1. -/
theorem first_cycle_excluded :
    (∀ (cfg : Config) (s : State) (rec : Tstamps), s.num_packets ≤ 1 →
        (evalStep cfg s rec).min_lat = s.min_lat ∧
        (evalStep cfg s rec).max_lat = s.max_lat ∧
        (evalStep cfg s rec).samples = s.samples ∧
        (evalStep cfg s rec).bins = s.bins ∧
        (evalStep cfg s rec).counted = s.counted) ∧
    (∀ (cfg : Config) (recs : List Tstamps),
        (∀ r ∈ recs, ¬ tsComplete r) →
        (runE cfg initState recs).num_packets ≤ 1) := by
  constructor
  · intro cfg s rec hle
    rcases Nat.eq_zero_or_pos s.num_packets with h0 | hpos
    · rw [evalStep_first cfg s rec h0]
      exact ⟨rfl, rfl, rfl, rfl, rfl⟩
    · have h1 : s.num_packets = 1 := by omega
      by_cases hc : tsComplete rec
      · rw [evalStep_second cfg s rec h1 hc]
        exact ⟨rfl, rfl, rfl, rfl, rfl⟩
      · rw [evalStep_anomalous cfg s rec (by omega) hc]
        exact ⟨rfl, rfl, rfl, rfl, rfl⟩
  · intro cfg recs
    suffices h : ∀ (s : State), s.num_packets ≤ 1 →
        (∀ r ∈ recs, ¬ tsComplete r) →
        (runE cfg s recs).num_packets ≤ 1 by
      exact h initState (by norm_num [initState])
    induction recs with
    | nil => intro s hs _; exact hs
    | cons r rest ih =>
      intro s hs hall
      have hr : ¬ tsComplete r := hall r (List.mem_cons_self r rest)
      have hstep : (evalStep cfg s r).num_packets ≤ 1 := by
        rcases Nat.eq_zero_or_pos s.num_packets with h0 | hpos
        · rw [evalStep_first cfg s r h0]
          show s.num_packets + 1 ≤ 1
          omega
        · rw [evalStep_anomalous cfg s r (by omega) hr]
          show s.num_packets ≤ 1
          omega
      exact ih (evalStep cfg s r) hstep
        (fun r' hr' => hall r' (List.mem_cons_of_mem r hr'))

/-- Closed witness for `first_cycle_excluded`: the first completed
cycle (`recFull5`, evaluated at `num_packets = 1`) leaves the histogram
and the counted-sample log empty. -/
theorem first_cycle_excluded_witness :
    (evalStep ⟨true, 0⟩ initState Tstamps.zero).num_packets ≤ 1 ∧
    (evalStep ⟨true, 0⟩ (evalStep ⟨true, 0⟩ initState Tstamps.zero)
        recFull5).counted =
      (evalStep ⟨true, 0⟩ initState Tstamps.zero).counted :=
  ⟨by decide,
   (first_cycle_excluded.1 ⟨true, 0⟩ (evalStep ⟨true, 0⟩ initState Tstamps.zero)
     recFull5 (by decide)).2.2.2.2⟩

/-- C10 (confirmed): presence of a stage timestamp is judged by the
seconds field alone — an `SCM_TSTAMP_SND` message whose software and
hardware slots have zero seconds records nothing, whatever the
nanosecond fields hold; and a record whose scheduler-entry stamp has
zero seconds is treated as anomalous at evaluation time (the
`continue` branch), whatever its nanoseconds. -/
theorem presence_seconds_only :
    (∀ (rec : Tstamps) (tmid : Timespec) (n0 n2 : Int),
        recv_apply rec
          ⟨some (⟨0, n0⟩, tmid, ⟨0, n2⟩), some SCM_TSTAMP_SND⟩ = rec) ∧
    (∀ (cfg : Config) (s : State) (t1 t2 : Timespec) (n : Int),
        s.num_packets ≠ 0 →
        evalStep cfg s ⟨⟨0, n⟩, t1, t2⟩ =
          { s with tstamps := ⟨⟨0, n⟩, t1, t2⟩,
                   snapshots := s.snapshots +
                     (if cfg.snapshotSink then 1 else 0) }) := by
  constructor
  · intro rec tmid n0 n2
    simp [recv_apply, SCM_TSTAMP_SND, SCM_TSTAMP_SCHED]
  · intro cfg s t1 t2 n hnp
    exact evalStep_anomalous cfg s ⟨⟨0, n⟩, t1, t2⟩ hnp
      (by simp [tsComplete])

/-- Closed witness for `presence_seconds_only`: at `num_packets = 1`, a
record whose scheduler stamp is `0 s + 7 ns` takes the anomalous
branch. -/
theorem presence_seconds_only_witness :
    (evalStep ⟨true, 0⟩ initState Tstamps.zero).num_packets ≠ 0 ∧
    evalStep ⟨true, 0⟩ (evalStep ⟨true, 0⟩ initState Tstamps.zero)
        ⟨⟨0, 7⟩, ⟨5, 0⟩, ⟨5, 0⟩⟩ =
      { evalStep ⟨true, 0⟩ initState Tstamps.zero with
          tstamps := ⟨⟨0, 7⟩, ⟨5, 0⟩, ⟨5, 0⟩⟩,
          snapshots := (evalStep ⟨true, 0⟩ initState Tstamps.zero).snapshots +
            (if (true : Bool) then 1 else 0) } :=
  ⟨by decide,
   presence_seconds_only.2 ⟨true, 0⟩ (evalStep ⟨true, 0⟩ initState Tstamps.zero)
     ⟨5, 0⟩ ⟨5, 0⟩ 7 (by decide)⟩

/-- C3 counterexample: a single `recv_timestamp` call on a queue of two
messages leaves a message queued, contradicting "immediately after a
single drain call returns, no notification messages remain queued". -/
theorem drain_single_call_cex :
    (recv_timestamp ([⟨none, none⟩, ⟨none, none⟩], Tstamps.zero)).1 ≠
      [] := by
  decide

/-- C3 (corrected): each `recv_timestamp` call performs exactly one
non-blocking read, consuming at most one queued message — the queue is
empty after one call iff it held at most one message — and the
repeated invocations the `synchronize` wait performs (one per
readiness wake-up) empty it after at least `length` calls. -/
theorem drain_consumes_one :
    (∀ (q : List Msg) (rec : Tstamps),
        (recv_timestamp (q, rec)).1 = q.tail ∧
        ((recv_timestamp (q, rec)).1 = [] ↔ q.length ≤ 1)) ∧
    (∀ (n : Nat) (q : List Msg) (rec : Tstamps), q.length ≤ n →
        (recv_iter n (q, rec)).1 = []) := by
  constructor
  · intro q rec
    cases q with
    | nil => exact ⟨rfl, by simp [recv_timestamp]⟩
    | cons m rest =>
      refine ⟨rfl, ?_⟩
      show rest = [] ↔ rest.length + 1 ≤ 1
      simp [List.length_eq_zero]
  · intro n
    induction n with
    | zero =>
      intro q rec hq
      have hnil : q = [] := List.length_eq_zero.mp (by omega)
      subst hnil
      rfl
    | succ n ih =>
      intro q rec hq
      cases q with
      | nil => exact ih [] rec (by simp)
      | cons m rest =>
        exact ih rest (recv_apply rec m) (by simpa using hq)

/-- Closed witness for `drain_consumes_one` at a one-message queue and
two collector invocations. -/
theorem drain_consumes_one_witness :
    (recv_timestamp ([mSched5], Tstamps.zero)).1 = [mSched5].tail ∧
    ([mSched5] : List Msg).length ≤ 2 ∧
    (recv_iter 2 ([mSched5], Tstamps.zero)).1 = [] :=
  ⟨(drain_consumes_one.1 [mSched5] Tstamps.zero).1,
   by decide,
   drain_consumes_one.2 2 [mSched5] Tstamps.zero (by decide)⟩

/-- C4 counterexample: the claimed target
`ceil(now / P) × P + A` over total nanoseconds disagrees with the code.
At `now = 0.000000000 s`, `P = 100`, `A = 0`, the code's target is
100 ns (the next strictly-greater boundary) while the claim's formula
gives 0 (a boundary "at" now). At `now = 1.000000000 s`,
`P = 0.3 s`, `A = 0`, the code restarts the period grid at the second
boundary and yields 1.3 s while the claim's total-nanosecond grid
yields 1.2 s. -/
theorem synchronize_target_cex :
    (compute_next ⟨0, 0⟩ 100 0).totalNs = 100 ∧
    target_spec_C4 ⟨0, 0⟩ 100 0 = 0 ∧
    (compute_next ⟨1, 0⟩ 300000000 0).totalNs = 1300000000 ∧
    target_spec_C4 ⟨1, 0⟩ 300000000 0 = 1200000000 ∧
    (100 : Int) ≠ 0 ∧ (1300000000 : Int) ≠ 1200000000 := by
  refine ⟨?_, by decide, ?_, by decide, by decide, by decide⟩
  · rw [compute_next, normalize_totalNs]
    decide
  · rw [compute_next, normalize_totalNs]
    decide

/-- C4 (corrected): `synchronize` computes its wake target on the
nanoseconds-of-second field only: the target keeps `now.tv_sec` and
sets the nanosecond field to
`(now.tv_nsec / period + 1) * period + addend` — the smallest multiple
of the period *strictly greater* than `now.tv_nsec`, plus the offset —
then normalizes any nanosecond overflow into the seconds field so the
final nanosecond component lies in `[0, 10^9)`. -/
theorem synchronize_target_boundary (now : Timespec) (period addend : Int)
    (hn : 0 ≤ now.tv_nsec) (hp : 0 < period) (ha : 0 ≤ addend) :
    (compute_next now period addend).totalNs =
      now.tv_sec * 1000000000 +
        (now.tv_nsec.tdiv period + 1) * period + addend ∧
    0 ≤ (compute_next now period addend).tv_nsec ∧
    (compute_next now period addend).tv_nsec < 1000000000 ∧
    now.tv_nsec < (now.tv_nsec.tdiv period + 1) * period ∧
    (∀ m : Int, now.tv_nsec < m * period →
      (now.tv_nsec.tdiv period + 1) * period ≤ m * period) := by
  have hε : now.tv_nsec.tdiv period = now.tv_nsec / period :=
    Int.tdiv_eq_ediv hn (le_of_lt hp)
  have hq0 : 0 ≤ now.tv_nsec.tdiv period := Int.tdiv_nonneg hn (le_of_lt hp)
  have hX : 0 ≤ (now.tv_nsec.tdiv period + 1) * period + addend := by
    have : 0 < (now.tv_nsec.tdiv period + 1) * period :=
      mul_pos (by omega) hp
    omega
  have hlt : now.tv_nsec < (now.tv_nsec.tdiv period + 1) * period := by
    rw [hε]
    exact Int.lt_ediv_add_one_mul_self now.tv_nsec hp
  refine ⟨?_, ?_, ?_, hlt, ?_⟩
  · rw [compute_next, normalize_totalNs]
    unfold Timespec.totalNs
    ring
  · exact (normalize_nsec_range _ hX).1
  · exact (normalize_nsec_range _ hX).2
  · intro m hm
    have hdiv : now.tv_nsec / period < m :=
      (Int.ediv_lt_iff_lt_mul hp).mpr hm
    have : now.tv_nsec.tdiv period + 1 ≤ m := by omega
    exact mul_le_mul_of_nonneg_right this (le_of_lt hp)

/-- Closed witness for `synchronize_target_boundary` at
`now = 2 s + 250 ns`, `P = 100`, `A = 7`: the target instant is
`2 s + 307 ns`. -/
theorem synchronize_target_boundary_witness :
    (0 : Int) ≤ 250 ∧ (0 : Int) < 100 ∧ (0 : Int) ≤ 7 ∧
    (compute_next ⟨2, 250⟩ 100 7).totalNs =
      2 * 1000000000 + ((250 : Int).tdiv 100 + 1) * 100 + 7 :=
  ⟨by decide, by decide, by decide,
   (synchronize_target_boundary ⟨2, 250⟩ 100 7 (by decide) (by decide)
     (by decide)).1⟩

/-- C5 counterexample: the claim's truth table disagrees with the
code. On a "handed to driver" message with both `triple[0]` and
`triple[2]` non-zero, the code records only the driver handoff
(`else if` precedence) while the claim's rules also set wireDeparture;
on one whose `triple[0]` is `0 s + 5 ns` (non-zero as a value, zero in
seconds), the code records nothing while the claim's `triple[0]`
non-zero rule sets driverHandoff. -/
theorem recv_dispatch_cex :
    recv_apply Tstamps.zero
        ⟨some (⟨1, 0⟩, Timespec.zero, ⟨3, 0⟩), some SCM_TSTAMP_SND⟩ ≠
      recv_apply_spec_C5 Tstamps.zero
        ⟨some (⟨1, 0⟩, Timespec.zero, ⟨3, 0⟩), some SCM_TSTAMP_SND⟩ ∧
    recv_apply Tstamps.zero
        ⟨some (⟨0, 5⟩, Timespec.zero, Timespec.zero), some SCM_TSTAMP_SND⟩ ≠
      recv_apply_spec_C5 Tstamps.zero
        ⟨some (⟨0, 5⟩, Timespec.zero, Timespec.zero), some SCM_TSTAMP_SND⟩ := by
  decide

/-- C5 (corrected): for a drained message carrying both ancillary
pieces, "entered scheduler" sets the scheduled stage to `triple[0]`
unconditionally; "handed to driver" sets the driver-handoff stage to
`triple[0]` when `triple[0]`'s *seconds* are non-zero (regardless of
`triple[2]`), else sets the wire-departure stage to `triple[2]` when
`triple[2]`'s seconds are non-zero, else changes nothing; any other
event type changes nothing; and a message lacking either piece leaves
the record unchanged. -/
theorem recv_dispatch_rules :
    ∀ (rec : Tstamps) (a b c : Timespec),
      recv_apply rec ⟨some (a, b, c), some SCM_TSTAMP_SCHED⟩ =
        { rec with t0 := a } ∧
      (a.tv_sec ≠ 0 →
        recv_apply rec ⟨some (a, b, c), some SCM_TSTAMP_SND⟩ =
          { rec with t1 := a }) ∧
      (a.tv_sec = 0 → c.tv_sec ≠ 0 →
        recv_apply rec ⟨some (a, b, c), some SCM_TSTAMP_SND⟩ =
          { rec with t2 := c }) ∧
      (a.tv_sec = 0 → c.tv_sec = 0 →
        recv_apply rec ⟨some (a, b, c), some SCM_TSTAMP_SND⟩ = rec) ∧
      (∀ ee : Nat, ee ≠ SCM_TSTAMP_SCHED → ee ≠ SCM_TSTAMP_SND →
        recv_apply rec ⟨some (a, b, c), some ee⟩ = rec) ∧
      (∀ t, recv_apply rec ⟨t, none⟩ = rec) ∧
      (∀ e, recv_apply rec ⟨none, e⟩ = rec) := by
  intro rec a b c
  refine ⟨?_, fun h1 => ?_, fun h1 h2 => ?_, fun h1 h2 => ?_,
    fun ee he1 he2 => ?_, fun t => ?_, fun e => ?_⟩
  · simp [recv_apply]
  · simp [recv_apply, SCM_TSTAMP_SND, SCM_TSTAMP_SCHED, h1]
  · simp [recv_apply, SCM_TSTAMP_SND, SCM_TSTAMP_SCHED, h1, h2]
  · simp [recv_apply, SCM_TSTAMP_SND, SCM_TSTAMP_SCHED, h1, h2]
  · simp [recv_apply, he1, he2]
  · cases t <;> rfl
  · rfl

/-- Closed witness for `recv_dispatch_rules`: a "handed to driver"
message with a populated software slot records the driver-handoff
stage. -/
theorem recv_dispatch_rules_witness :
    ((5 : Int) ≠ 0) ∧
    recv_apply Tstamps.zero
        ⟨some (⟨5, 0⟩, Timespec.zero, Timespec.zero), some SCM_TSTAMP_SND⟩ =
      { Tstamps.zero with t1 := ⟨5, 0⟩ } :=
  ⟨by decide,
   (recv_dispatch_rules Tstamps.zero ⟨5, 0⟩ Timespec.zero
     Timespec.zero).2.1 (by decide)⟩

/-- C1 counterexample: a two-iteration run whose second iteration
evaluates an incomplete record (only the scheduler stamp arrived).
Were the claim true, after two iterations the sequence counter and
cycle count would both be 2 and the record re-zeroed; in fact the
`continue` leaves the counter and count at 1 and the stale partial
record in place. -/
theorem cycle_advance_cex :
    (run ⟨true, 0⟩ initState [[], [mSched5]]).seqid = 1 ∧
    (run ⟨true, 0⟩ initState [[], [mSched5]]).num_packets = 1 ∧
    (run ⟨true, 0⟩ initState [[], [mSched5]]).tstamps ≠ Tstamps.zero := by
  decide

/-- C1 (corrected): an iteration whose evaluation finds one or more
missing stage timestamps `continue`s, leaving the sequence counter and
cycle count unchanged and carrying the partial record into the next
cycle; every other iteration (the very first included) advances the
sequence counter mod 65536, zeroes the timestamp record, and
increments the cycle count. The first conjunct records that a loop
iteration is the evaluation step applied to the fold of the messages
collected during its wait. -/
theorem cycle_advance (cfg : Config) (s : State) (rec : Tstamps) :
    (∀ msgs : List Msg,
      iter cfg s msgs = evalStep cfg s (msgs.foldl recv_apply s.tstamps)) ∧
    (s.num_packets ≠ 0 → ¬ tsComplete rec →
      (evalStep cfg s rec).seqid = s.seqid ∧
      (evalStep cfg s rec).num_packets = s.num_packets ∧
      (evalStep cfg s rec).tstamps = rec) ∧
    (s.num_packets = 0 ∨ tsComplete rec →
      (evalStep cfg s rec).seqid = (s.seqid + 1) % 65536 ∧
      (evalStep cfg s rec).num_packets = s.num_packets + 1 ∧
      (evalStep cfg s rec).tstamps = Tstamps.zero) := by
  refine ⟨fun msgs => rfl, fun h1 h2 => ?_, fun h => ?_⟩
  · rw [evalStep_anomalous cfg s rec h1 h2]
    exact ⟨rfl, rfl, rfl⟩
  · by_cases h0 : s.num_packets = 0
    · rw [evalStep_first cfg s rec h0]
      exact ⟨rfl, rfl, rfl⟩
    · have hc : tsComplete rec := by tauto
      rcases Nat.lt_or_ge 1 s.num_packets with hgt | hle
      · rw [evalStep_counted cfg s rec hgt hc]
        exact ⟨rfl, rfl, rfl⟩
      · have h1 : s.num_packets = 1 := by omega
        rw [evalStep_second cfg s rec h1 hc]
        exact ⟨rfl, rfl, rfl⟩

/-- Closed witness for `cycle_advance`: after one iteration the state
is at `num_packets = 1`; evaluating an incomplete record there leaves
the sequence counter unchanged. -/
theorem cycle_advance_witness :
    (evalStep ⟨true, 0⟩ initState Tstamps.zero).num_packets ≠ 0 ∧
    ¬ tsComplete ⟨⟨5, 0⟩, Timespec.zero, Timespec.zero⟩ ∧
    (evalStep ⟨true, 0⟩ (evalStep ⟨true, 0⟩ initState Tstamps.zero)
        ⟨⟨5, 0⟩, Timespec.zero, Timespec.zero⟩).seqid =
      (evalStep ⟨true, 0⟩ initState Tstamps.zero).seqid :=
  ⟨by decide, by decide,
   ((cycle_advance ⟨true, 0⟩ (evalStep ⟨true, 0⟩ initState Tstamps.zero)
     ⟨⟨5, 0⟩, Timespec.zero, Timespec.zero⟩).2.1 (by decide) (by decide)).1⟩

/-- The first loop iteration establishes the window invariant. -/
lemma windowInv_init (cfg : Config) (rec : Tstamps) :
    windowInv 1 [] (evalStep cfg initState rec) := by
  rw [evalStep_first cfg initState rec rfl]
  refine ⟨rfl, rfl, rfl, rfl, fun j => ?_⟩
  simp [initState]

/-- Evaluating the first completed cycle (excluded from statistics)
preserves the window invariant. -/
lemma windowInv_second (cfg : Config) (s : State) (rec : Tstamps)
    (hInv : windowInv 1 [] s) (hc : tsComplete rec) :
    windowInv 2 [] (evalStep cfg s rec) := by
  obtain ⟨hnp, hts, hcnt, hlen, hsamp⟩ := hInv
  rw [evalStep_second cfg s rec hnp hc]
  exact ⟨by show s.num_packets + 1 = 2; omega, rfl, hcnt, rfl,
    fun j => hsamp j⟩

/-- A counted cycle extends the window invariant: its latency is
appended to the counted log and stored at window index
`num_packets = i`. -/
lemma windowInv_step (cfg : Config) (s : State) (rec : Tstamps) (i : Nat)
    (c : List Int) (hInv : windowInv i c s) (h2 : 2 ≤ i) (hle : i ≤ 1023)
    (hc : tsComplete rec) :
    windowInv (i + 1) (c ++ [latency rec]) (evalStep cfg s rec) := by
  obtain ⟨hnp, hts, hcnt, hlen, hsamp⟩ := hInv
  rw [evalStep_counted cfg s rec (by omega) hc]
  have hmask : s.num_packets &&& (NSAMPLES - 1) = i := by
    show s.num_packets &&& 1023 = i
    rw [hnp]
    exact land_mask_eq_self i (by omega)
  refine ⟨by show s.num_packets + 1 = i + 1; omega, rfl,
    by show s.counted ++ [latency rec] = c ++ [latency rec]; rw [hcnt],
    by simp only [List.length_append, List.length_singleton]; omega,
    fun j => ?_⟩
  show (if j = s.num_packets &&& (NSAMPLES - 1) then latency rec
      else s.samples j) = _
  rw [hmask]
  have hlen1 : (c ++ [latency rec]).length = c.length + 1 := by
    simp only [List.length_append, List.length_singleton]
  by_cases hj : j = i
  · subst hj
    rw [if_pos rfl, if_pos ⟨h2, by omega⟩,
      show j - 2 = c.length from by omega,
      List.getD_eq_getElem?_getD, List.getElem?_concat_length]
    rfl
  · rw [if_neg hj, hsamp j]
    by_cases hcond : 2 ≤ j ∧ j - 2 < c.length
    · rw [if_pos hcond, if_pos ⟨hcond.1, by omega⟩,
        List.getD_append c [latency rec] 0 (j - 2) hcond.2]
    · rw [if_neg hcond, if_neg (by omega)]

/-- Folding any number of counted cycles preserves the window
invariant, as long as the window has not wrapped. -/
lemma windowInv_runE (cfg : Config) (recs : List Tstamps) :
    ∀ (s : State) (i : Nat) (c : List Int), windowInv i c s → 2 ≤ i →
      i + recs.length ≤ 1024 → (∀ r ∈ recs, tsComplete r) →
      windowInv (i + recs.length) (c ++ recs.map latency)
        (runE cfg s recs) := by
  induction recs with
  | nil =>
    intro s i c hInv _ _ _
    simpa using hInv
  | cons r rest ih =>
    intro s i c hInv h2 hlen hall
    have hstep : windowInv (i + 1) (c ++ [latency r]) (evalStep cfg s r) :=
      windowInv_step cfg s r i c hInv h2
        (by simp only [List.length_cons] at hlen; omega)
        (hall r (List.mem_cons_self r rest))
    have hres := ih (evalStep cfg s r) (i + 1) (c ++ [latency r]) hstep
      (by omega) (by simp only [List.length_cons] at hlen ⊢; omega)
      (fun r' h' => hall r' (List.mem_cons_of_mem r h'))
    rw [show i + (r :: rest).length = i + 1 + rest.length from
        by simp only [List.length_cons]; omega,
      show c ++ (r :: rest).map latency = (c ++ [latency r]) ++ rest.map latency
        from by simp]
    exact hres

/-- C2 counterexample: a three-iteration run with exactly one counted
sample, of latency 100 µs. The claim's median — sort the one counted
sample, take index 0 — is 100; `print_statistics` instead discounts
one packet from the count of 3, sorts the first
`n = min(2, 1024) = 2` window entries — the never-written zero slots
0 and 1, not the counted sample stored at index 2 — and reports 0. -/
theorem report_median_cex :
    (run ⟨false, 0⟩ initState [[], msgsFull5, msgsFull5]).counted = [100] ∧
    report_median (run ⟨false, 0⟩ initState [[], msgsFull5, msgsFull5]) =
      some 0 ∧
    median_spec_C2 [100] = some 100 ∧
    (0 : Int) ≠ 100 := by
  decide

/-- C2 (corrected): in an anomaly-free run whose iterations after the
first two evaluate the complete records `rest` (so exactly
`k = rest.length` counted samples, `1 ≤ k ≤ 1022`), the counted log is
exactly the latencies of `rest`, and `report()` sorts ascending the
first `min(k + 1, 1024) = k + 1` window entries — the two never-written
zero slots followed by all counted samples but the last — and reports
the entry at index `(k + 1) / 2`. -/
theorem report_median_run (cfg : Config) (r1 r2 : Tstamps)
    (rest : List Tstamps) (hc2 : tsComplete r2)
    (hall : ∀ r ∈ rest, tsComplete r) (hk1 : 1 ≤ rest.length)
    (hk : rest.length ≤ 1022) :
    (runE cfg initState (r1 :: r2 :: rest)).counted = rest.map latency ∧
    report_median (runE cfg initState (r1 :: r2 :: rest)) =
      some ((List.insertionSort (· ≤ ·)
          (0 :: 0 :: (rest.map latency).take (rest.length - 1))).getD
        ((rest.length + 1) / 2) 0) := by
  have hInv : windowInv (2 + rest.length) (rest.map latency)
      (runE cfg initState (r1 :: r2 :: rest)) := by
    have h2 : windowInv 2 []
        (evalStep cfg (evalStep cfg initState r1) r2) :=
      windowInv_second cfg (evalStep cfg initState r1) r2
        (windowInv_init cfg r1) hc2
    have := windowInv_runE cfg rest
      (evalStep cfg (evalStep cfg initState r1) r2) 2 [] h2 (by omega)
      (by omega) hall
    simpa using this
  obtain ⟨hnp, hts, hcnt, hlen, hsamp⟩ := hInv
  have hmaplen : (rest.map latency).length = rest.length :=
    List.length_map rest latency
  refine ⟨hcnt, ?_⟩
  have hwindow : (List.range (rest.length + 1)).map
        (runE cfg initState (r1 :: r2 :: rest)).samples =
      0 :: 0 :: (rest.map latency).take (rest.length - 1) := by
    apply List.ext_getElem
    · simp only [List.length_map, List.length_range, List.length_cons,
        List.length_take]
      omega
    · intro idx hi1 hi2
      simp only [List.getElem_map, List.getElem_range]
      have hibound : idx < rest.length + 1 := by
        simpa using hi1
      rcases idx with _ | idx
      · rw [hsamp 0]
        simp
      · rcases idx with _ | j
        · rw [hsamp 1]
          simp
        · rw [hsamp (j + 2)]
          have hjk : j < rest.length - 1 := by omega
          rw [if_pos ⟨by omega, by omega⟩,
            List.getD_eq_getElem (rest.map latency) 0 (by omega)]
          simp only [List.getElem_cons_succ]
          rw [List.getElem_take]
          simp
  show report_median _ = _
  rw [report_median, hnp]
  rw [show 2 + rest.length - 1 = rest.length + 1 from by omega,
    if_neg (by omega),
    show min (rest.length + 1) NSAMPLES = rest.length + 1 from by
      show min (rest.length + 1) 1024 = rest.length + 1
      omega,
    hwindow]

/-- Closed witness for `report_median_run`: one counted 100 µs sample;
the report's median is the entry at index 1 of the sorted pair of
never-written zero slots, i.e. 0. -/
theorem report_median_run_witness :
    tsComplete recFull5 ∧ (∀ r ∈ [recFull5], tsComplete r) ∧
    (runE ⟨false, 0⟩ initState
        [Tstamps.zero, recFull5, recFull5]).counted = [recFull5].map latency ∧
    report_median (runE ⟨false, 0⟩ initState
        [Tstamps.zero, recFull5, recFull5]) =
      some ((List.insertionSort (· ≤ ·)
          (0 :: 0 :: ([recFull5].map latency).take 0)).getD 1 0) :=
  ⟨by decide, by decide,
   (report_median_run ⟨false, 0⟩ Tstamps.zero recFull5 [recFull5]
     (by decide) (by decide) (by decide) (by decide)).1,
   (report_median_run ⟨false, 0⟩ Tstamps.zero recFull5 [recFull5]
     (by decide) (by decide) (by decide) (by decide)).2⟩

end Wiretime
